import Mathlib

/-!
Verification of the library management example
(`src/goit_pythonweb_hw_01/task_2/main.py`) against its natural-language
specification.

The Python program is embedded shallowly:

* `Book` mirrors the frozen dataclass `Book` (three string fields,
  structural equality).
* `LibraryStorage` keeps its books in the mutable list `self.items`; we
  model a storage state as the value of that list (`List Book`) and each
  method as a function from the old list to the new one.
* `LibraryFormatter.log_items` performs `logger.info("Book: %s", book)`
  per book; we model the formatter by the list of formatted log messages
  it sends to the sink, in emission order (the Python method returns
  `None`, so these messages are its entire observable behaviour).
* `LibraryManager.run` is a blocking read-eval loop; we model it as a
  function from the finite list of input lines to the trace of outputs
  (prompts, plain prints, log messages) and the final storage state.
-/

namespace Task2

/-- Model of the `Book` dataclass of `main.py` (frozen): `title`, `author`, `year`,
all strings, equality structural on the three fields. -/
structure Book where
  title : String
  author : String
  year : String
deriving DecidableEq, Repr

/-- Embeds `Book.__str__`: `f"Title: {self.title}, Author: {self.author}, Year: {self.year}"`. -/
def Book.str (b : Book) : String :=
  "Title: " ++ b.title ++ ", Author: " ++ b.author ++ ", Year: " ++ b.year

/-- Embeds `LibraryStorage.add_item`: `if item not in self.items: self.items.append(item)`. -/
def add_item (items : List Book) (item : Book) : List Book :=
  if item ∈ items then items else items ++ [item]

/-- Embeds `LibraryStorage.remove_item_by_title`:
`self.items = [book for book in self.items if book.title != title]`. -/
def remove_item_by_title (items : List Book) (title : String) : List Book :=
  items.filter (fun book => book.title ≠ title)

/-- Embeds `LibraryStorage.list_items`: `return self.items.copy()` — the returned
value equals the stored list (the aliasing aspect of the copy is modelled
separately with an explicit heap). -/
def list_items (items : List Book) : List Book :=
  items

/-- Embeds `LibraryFormatter.log_items`: `for book in items: logger.info("Book: %s", book)`,
modelled as the list of formatted messages handed to the logging sink. -/
def log_items : List Book → List String
  | [] => []
  | book :: rest => ("Book: " ++ Book.str book) :: log_items rest

/-- Embeds `Library.add_book`: builds `Book(title, author, year)` and delegates to
`add_item`. -/
def add_book (items : List Book) (title author year : String) : List Book :=
  add_item items (Book.mk title author year)

/-- Embeds `Library.remove_book`: delegates to `remove_item_by_title`. -/
def remove_book (items : List Book) (title : String) : List Book :=
  remove_item_by_title items title

/-- Embeds `Library.show_books`: `log_items` applied to `list_items`. -/
def show_books (items : List Book) : List String :=
  log_items (list_items items)


/-- The line shape asserted by the claim for each record: the bare
`Title: <title>, Author: <author>, Year: <year>` with no prefix. This
follows the spec's words, for comparison with `log_items` from the source. -/
def claimedLine (b : Book) : String :=
  "Title: " ++ b.title ++ ", Author: " ++ b.author ++ ", Year: " ++ b.year

/-! ### Claim C7: defensive copy

The value-level model above cannot distinguish `return self.items` from
`return self.items.copy()`, so the aliasing structure is made explicit: a
heap is a list of cells, each holding a Python list value; a reference is a
cell index. `list_items` reads the storage's cell and allocates a fresh
cell holding the same value (`self.items.copy()` allocates a new list
object with the same elements), returning a reference to the fresh cell.
Mutating the returned list is writing an arbitrary new value to its cell. -/

/-- A heap of Python list objects: cell index ↦ list value. -/
abbrev Heap : Type := List (List Book)

/-- Dereference a cell (out-of-range reads never arise for valid refs). -/
def heapRead (h : Heap) (r : Nat) : List Book :=
  List.getD h r []

/-- In-place mutation of the list object in cell `r` (covers append, remove,
reorder: any resulting value). -/
def heapWrite (h : Heap) (r : Nat) (v : List Book) : Heap :=
  List.set h r v

/-- Allocate a fresh list object, returning the new heap and its reference. -/
def heapAlloc (h : Heap) (v : List Book) : Heap × Nat :=
  (h ++ [v], h.length)

/-- Embeds `LibraryStorage.list_items` with aliasing explicit: `self.items.copy()`
reads the storage cell `st` and allocates a fresh cell with the same
elements. -/
def list_items_ref (h : Heap) (st : Nat) : Heap × Nat :=
  heapAlloc h (heapRead h st)

/-! ### `LibraryManager.run` -/

/-- One observable output of the command loop: a prompt printed by
`input(...)`, a plain `print(...)`, or a message sent to the logging sink. -/
inductive Out where
  | prompt (msg : String)
  | print (msg : String)
  | log (msg : String)
deriving DecidableEq, Repr

/-- Prompt of `input("Enter command (add, remove, show, exit): ")`. -/
def commandPrompt : String := "Enter command (add, remove, show, exit): "

/-- Prompt of `input("Enter book title: ")`. -/
def titlePrompt : String := "Enter book title: "

/-- Prompt of `input("Enter book author: ")`. -/
def authorPrompt : String := "Enter book author: "

/-- Prompt of `input("Enter book year: ")`. -/
def yearPrompt : String := "Enter book year: "

/-- Prompt of `input("Enter book title to remove: ")`. -/
def removeTitlePrompt : String := "Enter book title to remove: "

/-- Message of `print("Invalid command. Please try again.")`. -/
def invalidMsg : String := "Invalid command. Please try again."

/-- Python `str.strip()`: drop leading and trailing whitespace characters
(modelled over the string's character list so it is kernel-computable). -/
def strip (s : String) : String :=
  ⟨((s.data.dropWhile Char.isWhitespace).reverse.dropWhile Char.isWhitespace).reverse⟩

/-- Python `str.lower()`: lowercase every character. -/
def lower (s : String) : String :=
  ⟨s.data.map Char.toLower⟩

/-- Embeds `LibraryManager.run`, modelled on the finite list of stdin lines: each
iteration prompts, reads a line, normalizes it with `strip`/`lower` and
dispatches; `add` reads three more lines and `remove` one more, each
`.strip()`-ped. Running out of lines (EOF, out of the spec's scope) ends
the run after the prompts already printed. Returns the output trace and
the final storage list. -/
def runLoop : List String → List Book → List Out × List Book
  | [], items => ([], items)
  | line :: rest, items =>
    let cmd := lower (strip line)
    if cmd = "add" then
      match rest with
      | t :: a :: y :: rest' =>
        let next := runLoop rest' (add_book items (strip t) (strip a) (strip y))
        (Out.prompt commandPrompt :: Out.prompt titlePrompt :: Out.prompt authorPrompt
          :: Out.prompt yearPrompt :: next.1, next.2)
      | [_, _] =>
        ([Out.prompt commandPrompt, Out.prompt titlePrompt, Out.prompt authorPrompt,
          Out.prompt yearPrompt], items)
      | [_] =>
        ([Out.prompt commandPrompt, Out.prompt titlePrompt, Out.prompt authorPrompt], items)
      | [] => ([Out.prompt commandPrompt, Out.prompt titlePrompt], items)
    else if cmd = "remove" then
      match rest with
      | t :: rest' =>
        let next := runLoop rest' (remove_book items (strip t))
        (Out.prompt commandPrompt :: Out.prompt removeTitlePrompt :: next.1, next.2)
      | [] => ([Out.prompt commandPrompt, Out.prompt removeTitlePrompt], items)
    else if cmd = "show" then
      let next := runLoop rest items
      (Out.prompt commandPrompt :: ((show_books items).map Out.log ++ next.1), next.2)
    else if cmd = "exit" then
      ([Out.prompt commandPrompt], items)
    else
      let next := runLoop rest items
      (Out.prompt commandPrompt :: Out.print invalidMsg :: next.1, next.2)

/-- The formatted record lines a run sends to the logging sink (the `show`
output), extracted from the output trace. -/
def logsOf (outs : List Out) : List String :=
  outs.filterMap fun o =>
    match o with
    | Out.log m => some m
    | _ => none

/-! ### Claim C4: storage contents after a sequence of operations -/

/-- One storage operation issued through the library: an `add_item` of a
record or a `remove_item_by_title` of a title. -/
inductive Event where
  | add (b : Book)
  | remove (title : String)
deriving DecidableEq, Repr

/-- Apply one operation to the storage list. -/
def step (items : List Book) : Event → List Book
  | Event.add b => add_item items b
  | Event.remove t => remove_item_by_title items t

/-- Storage contents after a finite operation sequence from the empty
storage. -/
def run (es : List Event) : List Book := es.foldl step []

/-- Predicate `survives b l`: over the event list `l` given most-recent-first: `b` was
added and not subsequently removed, i.e. scanning backwards from the end an
add of `b` is met before any remove of `b.title`. -/
def survives (b : Book) : List Event → Bool
  | [] => false
  | Event.add b' :: rest => decide (b' = b) || survives b rest
  | Event.remove t :: rest => !(decide (t = b.title)) && survives b rest

/-- Position (counted from the most recent event) of the add at which `b`
last entered the storage: the first add of `b` after the last remove of
`b.title`; `none` when `b` does not survive. Input most-recent-first. -/
def entryAux (b : Book) : List Event → Option Nat
  | [] => none
  | Event.add b' :: rest =>
    if b' = b then
      match entryAux b rest with
      | some k => some (k + 1)
      | none => some 0
    else (entryAux b rest).map (· + 1)
  | Event.remove t :: rest =>
    if t = b.title then none else (entryAux b rest).map (· + 1)

/-- The records appearing in add events, in event order. -/
def addsOf (es : List Event) : List Book :=
  es.filterMap fun e =>
    match e with
    | Event.add b => some b
    | Event.remove _ => none

/-- Deduplicate keeping each record's first occurrence. -/
def dedupFirst (l : List Book) : List Book :=
  l.foldl (fun acc b => if b ∈ acc then acc else acc ++ [b]) []

/-- The storage contents the claim asserts, following the spec's words: the
surviving records listed in the order in which they were FIRST added. -/
def claimedNetList (es : List Event) : List Book :=
  (dedupFirst (addsOf es)).filter (fun b => survives b es.reverse)

/-! ### Basic storage lemmas -/

theorem mem_add_item {items : List Book} {item b : Book} :
    b ∈ add_item items item ↔ b ∈ items ∨ b = item := by
  unfold add_item
  split
  · constructor
    · exact fun h => Or.inl h
    · rintro (h | rfl)
      · exact h
      · assumption
  · simp [List.mem_append]

theorem add_item_self_mem (items : List Book) (item : Book) :
    item ∈ add_item items item := by
  simp [mem_add_item]

theorem add_item_of_mem {items : List Book} {item : Book} (h : item ∈ items) :
    add_item items item = items := by
  simp [add_item, h]

theorem mem_remove_item {items : List Book} {t : String} {b : Book} :
    b ∈ remove_item_by_title items t ↔ b ∈ items ∧ b.title ≠ t := by
  simp [remove_item_by_title]

theorem add_item_nodup {items : List Book} (h : items.Nodup) (item : Book) :
    (add_item items item).Nodup := by
  unfold add_item
  split
  · exact h
  · simp_all [List.nodup_append]

theorem remove_item_nodup {items : List Book} (h : items.Nodup) (t : String) :
    (remove_item_by_title items t).Nodup :=
  h.filter _

/-! ### Claims C2, C3, C5, C6 -/

/-- C2: `remove_item_by_title title` removes exactly the stored records whose
`title` field equals the argument (case-sensitive equality), keeps all other
records in place and in order (the result is a sublist of the old list), and
when no stored record bears that title it leaves the storage unchanged and
raises no error (the function is total). -/
theorem remove_by_title_exact (items : List Book) (t : String) :
    (∀ b : Book, b ∈ remove_item_by_title items t ↔ b ∈ items ∧ b.title ≠ t) ∧
      (remove_item_by_title items t).Sublist items ∧
      ((∀ b ∈ items, b.title ≠ t) → remove_item_by_title items t = items) := by
  refine ⟨fun b => mem_remove_item, List.filter_sublist items, fun h => ?_⟩
  simp only [remove_item_by_title, List.filter_eq_self]
  intro b hb
  simpa using h b hb

/-- Witness for `remove_by_title_exact` at a concrete storage and title. -/
theorem remove_by_title_exact_witness :
    remove_item_by_title [Book.mk "B" "Y" "2001"] "A" = [Book.mk "B" "Y" "2001"] :=
  (remove_by_title_exact [Book.mk "B" "Y" "2001"] "A").2.2 (by decide)

/-- C3: on a duplicate-free storage (the invariant every reachable storage
satisfies), adding the same `(title, author, year)` triple twice stores
exactly one record equal to it, and the second `add_item` is a no-op: it
changes nothing and raises no error (the function is total). -/
theorem add_item_duplicate_idempotent (items : List Book) (b : Book)
    (h : items.Nodup) :
    add_item (add_item items b) b = add_item items b ∧
      (add_item (add_item items b) b).count b = 1 := by
  have hmem : b ∈ add_item items b := add_item_self_mem items b
  have hnoop : add_item (add_item items b) b = add_item items b :=
    add_item_of_mem hmem
  refine ⟨hnoop, ?_⟩
  rw [hnoop]
  have : (add_item items b).Nodup := add_item_nodup h b
  exact List.count_eq_one_of_mem this hmem

/-- Witness for `add_item_duplicate_idempotent`: adding "1984" twice to the
empty storage stores it once. -/
theorem add_item_duplicate_idempotent_witness :
    add_item (add_item [] (Book.mk "1984" "Orwell" "1949")) (Book.mk "1984" "Orwell" "1949")
        = add_item [] (Book.mk "1984" "Orwell" "1949") ∧
      (add_item (add_item [] (Book.mk "1984" "Orwell" "1949"))
          (Book.mk "1984" "Orwell" "1949")).count (Book.mk "1984" "Orwell" "1949") = 1 :=
  add_item_duplicate_idempotent [] (Book.mk "1984" "Orwell" "1949") (by decide)

/-- C5: the no-two-structurally-equal-records invariant holds for the empty
initial storage and is preserved by `add_item`, by `remove_item_by_title`,
and by `list_items`. -/
theorem storage_nodup_invariant :
    ([] : List Book).Nodup ∧
      (∀ (items : List Book) (b : Book), items.Nodup → (add_item items b).Nodup) ∧
      (∀ (items : List Book) (t : String), items.Nodup →
        (remove_item_by_title items t).Nodup) ∧
      (∀ items : List Book, items.Nodup → (list_items items).Nodup) :=
  ⟨List.nodup_nil,
   fun _ b h => add_item_nodup h b,
   fun _ t h => remove_item_nodup h t,
   fun _ h => h⟩

/-- Witness for `storage_nodup_invariant` at a concrete duplicate-free
storage. -/
theorem storage_nodup_invariant_witness :
    (add_item [Book.mk "A" "X" "2000"] (Book.mk "B" "Y" "2001")).Nodup ∧
      (remove_item_by_title [Book.mk "A" "X" "2000"] "A").Nodup :=
  ⟨storage_nodup_invariant.2.1 [Book.mk "A" "X" "2000"] (Book.mk "B" "Y" "2001") (by decide),
   storage_nodup_invariant.2.2.1 [Book.mk "A" "X" "2000"] "A" (by decide)⟩

/-- C6: two records differing in at least one of the three fields are both
stored after the two `add_item` calls (from any storage state), and from the
empty storage the two adds leave exactly two records: structural equality
requires all three fields to agree, so neither add deduplicates the other. -/
theorem add_two_distinct_books (items : List Book) (b1 b2 : Book)
    (h : b1.title ≠ b2.title ∨ b1.author ≠ b2.author ∨ b1.year ≠ b2.year) :
    b1 ∈ add_item (add_item items b1) b2 ∧
      b2 ∈ add_item (add_item items b1) b2 ∧
      (add_item (add_item [] b1) b2).length = 2 := by
  have hne : b1 ≠ b2 := by
    intro heq
    rcases h with h | h | h <;> exact h (by rw [heq])
  refine ⟨?_, ?_, ?_⟩
  · exact mem_add_item.2 (Or.inl (add_item_self_mem items b1))
  · exact add_item_self_mem _ b2
  · have h1 : add_item [] b1 = [b1] := by simp [add_item]
    have h2 : b2 ∉ [b1] := by simpa using fun hmm => hne hmm.symm
    rw [h1, add_item, if_neg h2]
    rfl

/-- Witness for `add_two_distinct_books`: two books sharing title and author
but differing in year are both stored. -/
theorem add_two_distinct_books_witness :
    Book.mk "A" "X" "2000" ∈
        add_item (add_item [] (Book.mk "A" "X" "2000")) (Book.mk "A" "X" "2001") ∧
      Book.mk "A" "X" "2001" ∈
        add_item (add_item [] (Book.mk "A" "X" "2000")) (Book.mk "A" "X" "2001") ∧
      (add_item (add_item [] (Book.mk "A" "X" "2000")) (Book.mk "A" "X" "2001")).length = 2 :=
  add_two_distinct_books [] (Book.mk "A" "X" "2000") (Book.mk "A" "X" "2001")
    (Or.inr (Or.inr (by decide)))

/-! ### Claim C1: formatter output -/

/-! ### Claim C1 -/

/-- Counterexample to C1: on the one-record storage `[("1984","Orwell","1949")]`
the formatter's single emitted message is
`Book: Title: 1984, Author: Orwell, Year: 1949`, not the bare
`Title: 1984, Author: Orwell, Year: 1949` the claim asserts:
`logger.info("Book: %s", book)` prefixes every line with `Book: `. -/
theorem log_items_line_not_bare :
    log_items [Book.mk "1984" "Orwell" "1949"]
        = ["Book: Title: 1984, Author: Orwell, Year: 1949"] ∧
      log_items [Book.mk "1984" "Orwell" "1949"]
        ≠ [claimedLine (Book.mk "1984" "Orwell" "1949")] := by
  constructor
  · rfl
  · decide

/-- C1 amended: showing the books emits, for each stored record in storage
order, exactly one message to the logging sink, namely the record's string
representation `Title: <title>, Author: <author>, Year: <year>` prefixed
with `Book: `; nothing is returned (the emitted messages are the whole
observable effect). -/
theorem show_books_emits_one_line_per_record (items : List Book) :
    show_books items = items.map (fun b => "Book: " ++ Book.str b) ∧
      (show_books items).length = items.length ∧
      (∀ b : Book,
        Book.str b = "Title: " ++ b.title ++ ", Author: " ++ b.author
          ++ ", Year: " ++ b.year) := by
  refine ⟨?_, ?_, fun b => rfl⟩
  · show log_items items = _
    induction items with
    | nil => rfl
    | cons b rest ih => simp [log_items, ih]
  · show (log_items items).length = _
    induction items with
    | nil => rfl
    | cons b rest ih => simp [log_items, ih]

/-! ### Claim C7 -/

theorem heapRead_append (h : Heap) (v : List Book) {r : Nat} (hr : r < h.length) :
    heapRead (h ++ [v]) r = heapRead h r := by
  unfold heapRead
  induction h generalizing r with
  | nil => cases hr
  | cons c rest ih =>
    cases r with
    | zero => rfl
    | succ n => exact ih (Nat.lt_of_succ_lt_succ hr)

theorem heapRead_write_ne (h : Heap) {r s : Nat} (hne : r ≠ s) (v : List Book) :
    heapRead (heapWrite h r v) s = heapRead h s := by
  unfold heapRead heapWrite
  induction h generalizing r s with
  | nil => rfl
  | cons c rest ih =>
    cases r with
    | zero =>
      cases s with
      | zero => exact absurd rfl hne
      | succ m => rfl
    | succ n =>
      cases s with
      | zero => rfl
      | succ m => exact ih fun hnm => hne (by rw [hnm])

/-- C7: `list_items` returns a defensive copy. For any valid storage
reference, the returned reference is a fresh object distinct from the
storage's list, its contents equal the stored contents, and every mutation
performed through the returned reference leaves the storage's list exactly
as it was. -/
theorem list_items_defensive_copy (h : Heap) (st : Nat) (hst : st < h.length) :
    (list_items_ref h st).2 ≠ st ∧
      heapRead (list_items_ref h st).1 (list_items_ref h st).2 = heapRead h st ∧
      (∀ v : List Book,
        heapRead (heapWrite (list_items_ref h st).1 (list_items_ref h st).2 v) st
          = heapRead h st) := by
  have hfst : (list_items_ref h st).1 = h ++ [heapRead h st] := rfl
  have hsnd : (list_items_ref h st).2 = h.length := rfl
  refine ⟨?_, ?_, ?_⟩
  · rw [hsnd]
    exact fun heq => absurd (heq ▸ hst) (lt_irrefl _)
  · rw [hfst, hsnd]
    unfold heapRead
    rw [List.getD_eq_getElem?_getD, List.getElem?_concat_length]
    rfl
  · intro v
    rw [hfst, hsnd]
    have hne : h.length ≠ st := fun heq => absurd (heq ▸ hst) (lt_irrefl _)
    rw [heapRead_write_ne _ hne, heapRead_append _ _ hst]

/-- Witness for `list_items_defensive_copy` on a one-cell heap: mutating the
copy leaves the storage cell intact. -/
theorem list_items_defensive_copy_witness :
    (list_items_ref [[Book.mk "A" "X" "2000"]] 0).2 ≠ 0 ∧
      heapRead (list_items_ref [[Book.mk "A" "X" "2000"]] 0).1
          (list_items_ref [[Book.mk "A" "X" "2000"]] 0).2
        = heapRead [[Book.mk "A" "X" "2000"]] 0 ∧
      (∀ v : List Book,
        heapRead
            (heapWrite (list_items_ref [[Book.mk "A" "X" "2000"]] 0).1
              (list_items_ref [[Book.mk "A" "X" "2000"]] 0).2 v) 0
          = heapRead [[Book.mk "A" "X" "2000"]] 0) :=
  list_items_defensive_copy [[Book.mk "A" "X" "2000"]] 0 (by decide)

/-! ### Unfolding equations of `runLoop`, one per dispatch branch. -/

theorem runLoop_add (line t a y : String) (rest : List String) (items : List Book)
    (h : lower (strip line) = "add") :
    runLoop (line :: t :: a :: y :: rest) items =
      (Out.prompt commandPrompt :: Out.prompt titlePrompt :: Out.prompt authorPrompt
        :: Out.prompt yearPrompt
        :: (runLoop rest (add_book items (strip t) (strip a) (strip y))).1,
       (runLoop rest (add_book items (strip t) (strip a) (strip y))).2) := by
  simp only [runLoop, h, if_pos]

set_option maxHeartbeats 1000000 in
theorem runLoop_remove (line t : String) (rest : List String) (items : List Book)
    (h : lower (strip line) = "remove") :
    runLoop (line :: t :: rest) items =
      (Out.prompt commandPrompt :: Out.prompt removeTitlePrompt
        :: (runLoop rest (remove_book items (strip t))).1,
       (runLoop rest (remove_book items (strip t))).2) := by
  conv_lhs => rw [runLoop.eq_def]
  simp [h]

set_option maxHeartbeats 1000000 in
theorem runLoop_show (line : String) (rest : List String) (items : List Book)
    (h : lower (strip line) = "show") :
    runLoop (line :: rest) items =
      (Out.prompt commandPrompt :: ((show_books items).map Out.log
          ++ (runLoop rest items).1),
       (runLoop rest items).2) := by
  conv_lhs => rw [runLoop.eq_def]
  simp [h]

set_option maxHeartbeats 1000000 in
theorem runLoop_exit (line : String) (rest : List String) (items : List Book)
    (h : lower (strip line) = "exit") :
    runLoop (line :: rest) items = ([Out.prompt commandPrompt], items) := by
  conv_lhs => rw [runLoop.eq_def]
  simp [h]

set_option maxHeartbeats 1000000 in
theorem runLoop_invalid (line : String) (rest : List String) (items : List Book)
    (h1 : lower (strip line) ≠ "add") (h2 : lower (strip line) ≠ "remove")
    (h3 : lower (strip line) ≠ "show") (h4 : lower (strip line) ≠ "exit") :
    runLoop (line :: rest) items =
      (Out.prompt commandPrompt :: Out.print invalidMsg :: (runLoop rest items).1,
       (runLoop rest items).2) := by
  conv_lhs => rw [runLoop.eq_def]
  simp [h1, h2, h3, h4]

/-! ### Claims C8, C9, C10 -/

/-- C8: each command line is normalized with `.strip().lower()` before
dispatch; `exit` ends the loop with no further prompt and leaves the rest
of the input unread; an unrecognized command prints exactly
`Invalid command. Please try again.` and continues with the next prompt on
the same storage; `show`, `remove` and `add` invoke the corresponding
library operation (`show_books`, `remove_book`, `add_book`). -/
theorem manager_dispatch (line : String) (rest : List String) (items : List Book) :
    (lower (strip line) = "exit" →
      runLoop (line :: rest) items = ([Out.prompt commandPrompt], items)) ∧
      (lower (strip line) ∉ (["add", "remove", "show", "exit"] : List String) →
        runLoop (line :: rest) items =
          (Out.prompt commandPrompt :: Out.print invalidMsg :: (runLoop rest items).1,
           (runLoop rest items).2)) ∧
      (lower (strip line) = "show" →
        runLoop (line :: rest) items =
          (Out.prompt commandPrompt ::
            ((show_books items).map Out.log ++ (runLoop rest items).1),
           (runLoop rest items).2)) ∧
      (lower (strip line) = "remove" → ∀ (t : String) (rest' : List String),
        rest = t :: rest' →
        runLoop (line :: rest) items =
          (Out.prompt commandPrompt :: Out.prompt removeTitlePrompt
            :: (runLoop rest' (remove_book items (strip t))).1,
           (runLoop rest' (remove_book items (strip t))).2)) ∧
      (lower (strip line) = "add" → ∀ (t a y : String) (rest' : List String),
        rest = t :: a :: y :: rest' →
        runLoop (line :: rest) items =
          (Out.prompt commandPrompt :: Out.prompt titlePrompt :: Out.prompt authorPrompt
            :: Out.prompt yearPrompt
            :: (runLoop rest' (add_book items (strip t) (strip a) (strip y))).1,
           (runLoop rest' (add_book items (strip t) (strip a) (strip y))).2)) := by
  refine ⟨fun h => runLoop_exit line rest items h, fun h => ?_,
    fun h => runLoop_show line rest items h,
    fun h t rest' hr => by rw [hr]; exact runLoop_remove line t rest' items h,
    fun h t a y rest' hr => by rw [hr]; exact runLoop_add line t a y rest' items h⟩
  simp only [List.mem_cons, List.mem_singleton, not_or] at h
  obtain ⟨h1, h2, h3, h4, -⟩ := h
  exact runLoop_invalid line rest items h1 h2 h3 h4

/-- Witness for `manager_dispatch`: each dispatch hypothesis discharged at a
concrete input line (note ` EXIT ` normalizes to `exit`). -/
theorem manager_dispatch_witness :
    runLoop [" EXIT ", "show"] [] = ([Out.prompt commandPrompt], []) ∧
      runLoop ["foo"] [] =
        (Out.prompt commandPrompt :: Out.print invalidMsg :: (runLoop [] []).1,
         (runLoop [] []).2) ∧
      runLoop ["show"] [] =
        (Out.prompt commandPrompt :: ((show_books []).map Out.log ++ (runLoop [] []).1),
         (runLoop [] []).2) ∧
      runLoop ["remove", "A"] [] =
        (Out.prompt commandPrompt :: Out.prompt removeTitlePrompt
          :: (runLoop [] (remove_book [] (strip "A"))).1,
         (runLoop [] (remove_book [] (strip "A"))).2) ∧
      runLoop ["add", "T", "A", "Y"] [] =
        (Out.prompt commandPrompt :: Out.prompt titlePrompt :: Out.prompt authorPrompt
          :: Out.prompt yearPrompt
          :: (runLoop [] (add_book [] (strip "T") (strip "A") (strip "Y"))).1,
         (runLoop [] (add_book [] (strip "T") (strip "A") (strip "Y"))).2) :=
  ⟨(manager_dispatch " EXIT " ["show"] []).1 (by decide),
   (manager_dispatch "foo" [] []).2.1 (by decide),
   (manager_dispatch "show" [] []).2.2.1 (by decide),
   (manager_dispatch "remove" ["A"] []).2.2.2.1 (by decide) "A" [] rfl,
   (manager_dispatch "add" ["T", "A", "Y"] []).2.2.2.2 (by decide) "T" "A" "Y" [] rfl⟩

/-- C9: the Manager strips the prompted values. Two `add` commands whose
prompted inputs differ only in surrounding whitespace construct structurally
equal records and leave exactly one stored record; a `remove` command whose
prompted title trims to a stored record's title removes that record. -/
theorem manager_strips_prompt_values :
    (∀ t1 a1 y1 t2 a2 y2 : String,
      (strip t1) = (strip t2) → (strip a1) = (strip a2) → (strip y1) = (strip y2) →
      Book.mk (strip t1) (strip a1) (strip y1) = Book.mk (strip t2) (strip a2) (strip y2) ∧
        (runLoop ["add", t1, a1, y1, "add", t2, a2, y2] []).2
          = [Book.mk (strip t1) (strip a1) (strip y1)]) ∧
      (∀ (u : String) (b : Book) (items : List Book), (strip u) = b.title →
        (runLoop ["remove", u] items).2 = remove_item_by_title items b.title ∧
          b ∉ (runLoop ["remove", u] items).2) := by
  constructor
  · intro t1 a1 y1 t2 a2 y2 ht ha hy
    have hb : Book.mk (strip t1) (strip a1) (strip y1) = Book.mk (strip t2) (strip a2) (strip y2) := by
      rw [ht, ha, hy]
    refine ⟨hb, ?_⟩
    rw [runLoop_add "add" t1 a1 y1 _ [] (by decide),
      runLoop_add "add" t2 a2 y2 [] _ (by decide)]
    show (runLoop [] (add_book (add_book [] (strip t1) (strip a1) (strip y1))
      (strip t2) (strip a2) (strip y2))).2 = _
    unfold add_book
    rw [← hb, add_item_of_mem (add_item_self_mem _ _)]
    rfl
  · intro u b items hu
    rw [runLoop_remove "remove" u [] items (by decide)]
    show remove_book items (strip u) = _ ∧ b ∉ remove_book items (strip u)
    unfold remove_book
    rw [hu]
    exact ⟨rfl, fun hmem => (mem_remove_item.1 hmem).2 rfl⟩

/-- Witness for `manager_strips_prompt_values`: ` 1984 ` and `1984` (and
likewise padded author and year) deduplicate to one record, and removing
` B ` deletes the stored record titled `B`. -/
theorem manager_strips_prompt_values_witness :
    (runLoop ["add", " 1984 ", " Orwell", "1949 ", "add", "1984", "Orwell", "1949"] []).2
        = [Book.mk (strip " 1984 ") (strip " Orwell") (strip "1949 ")] ∧
      Book.mk "B" "Y" "2001" ∉ (runLoop ["remove", " B "] [Book.mk "B" "Y" "2001"]).2 :=
  ⟨(manager_strips_prompt_values.1 " 1984 " " Orwell" "1949 " "1984" "Orwell" "1949"
      (by decide) (by decide) (by decide)).2,
   (manager_strips_prompt_values.2 " B " (Book.mk "B" "Y" "2001")
      [Book.mk "B" "Y" "2001"] (by decide)).2⟩

/-! ### Claim C10 -/

/-- C10: the system is deterministic. Two runs on equal input-line sequences
produce identical final storage contents and identical sequences of
formatted record lines emitted by `show` commands: the observable behaviour
is a function of the input sequence alone. -/
theorem manager_deterministic (i1 i2 : List String) (h : i1 = i2) :
    logsOf (runLoop i1 []).1 = logsOf (runLoop i2 []).1 ∧
      (runLoop i1 []).2 = (runLoop i2 []).2 := by
  subst h
  exact ⟨rfl, rfl⟩

/-- Witness for `manager_deterministic` at a concrete input sequence. -/
theorem manager_deterministic_witness :
    logsOf (runLoop ["add", "T", "A", "Y", "show", "exit"] []).1
        = logsOf (runLoop ["add", "T", "A", "Y", "show", "exit"] []).1 ∧
      (runLoop ["add", "T", "A", "Y", "show", "exit"] []).2
        = (runLoop ["add", "T", "A", "Y", "show", "exit"] []).2 :=
  manager_deterministic ["add", "T", "A", "Y", "show", "exit"]
    ["add", "T", "A", "Y", "show", "exit"] rfl

/-! ### Claim C4 -/

theorem run_append (es : List Event) (e : Event) :
    run (es ++ [e]) = step (run es) e := by
  simp [run, List.foldl_append]

theorem entryAux_isSome (b : Book) (l : List Event) :
    (entryAux b l).isSome = survives b l := by
  induction l with
  | nil => rfl
  | cons e rest ih =>
    cases e with
    | add b' =>
      by_cases hb : b' = b
      · simp only [entryAux, survives, hb, if_pos]
        cases hrest : entryAux b rest <;> simp [hrest, hb]
      · simp [entryAux, survives, hb, ih]
    | remove t =>
      by_cases ht : t = b.title
      · simp [entryAux, survives, ht]
      · simp [entryAux, survives, ht, ih]

theorem mem_run_iff_survives (es : List Event) (b : Book) :
    b ∈ run es ↔ survives b es.reverse = true := by
  induction es using List.reverseRecOn with
  | nil => simp [run, survives]
  | append_singleton es e ih =>
    rw [run_append, List.reverse_append]
    cases e with
    | add b' =>
      simp only [step, List.reverse_cons, List.reverse_nil, List.nil_append,
        List.singleton_append, survives, Bool.or_eq_true, decide_eq_true_eq]
      rw [mem_add_item, ih]
      constructor
      · rintro (h | h)
        · exact Or.inr h
        · exact Or.inl h.symm
      · rintro (h | h)
        · exact Or.inr h.symm
        · exact Or.inl h
    | remove t =>
      simp only [step, List.reverse_cons, List.reverse_nil, List.nil_append,
        List.singleton_append, survives, Bool.and_eq_true, Bool.not_eq_true',
        decide_eq_false_iff_not]
      rw [mem_remove_item, ih]
      constructor
      · rintro ⟨h1, h2⟩
        exact ⟨fun he => h2 he.symm, h1⟩
      · rintro ⟨h1, h2⟩
        exact ⟨h2, fun he => h1 he.symm⟩

theorem entryAux_mem_some (es : List Event) (x : Book) (hx : x ∈ run es) :
    ∃ m, entryAux x es.reverse = some m := by
  have hs : survives x es.reverse = true := (mem_run_iff_survives es x).1 hx
  have : (entryAux x es.reverse).isSome = true := by
    rw [entryAux_isSome]; exact hs
  exact Option.isSome_iff_exists.1 this

theorem entryAux_cons_shift (e : Event) (x : Book) (l : List Event) (m : Nat)
    (hm : entryAux x l = some m)
    (hk : ∀ t, e = Event.remove t → t ≠ x.title) :
    entryAux x (e :: l) = some (m + 1) := by
  cases e with
  | add b' =>
    by_cases hb : b' = x
    · simp [entryAux, hb, hm]
    · simp [entryAux, hb, hm]
  | remove t =>
    have ht : t ≠ x.title := hk t rfl
    simp [entryAux, ht, hm]

theorem entryAux_cons_add_self (x : Book) (l : List Event)
    (h : entryAux x l = none) : entryAux x (Event.add x :: l) = some 0 := by
  simp [entryAux, h]

theorem run_pairwise_entry (es : List Event) :
    (run es).Pairwise (fun b1 b2 => ∀ k1 k2,
      entryAux b1 es.reverse = some k1 → entryAux b2 es.reverse = some k2 → k2 < k1) := by
  induction es using List.reverseRecOn with
  | nil => simp [run]
  | append_singleton es e ih =>
    have hrev : (es ++ [e]).reverse = e :: es.reverse := by
      simp
    rw [run_append, hrev]
    cases e with
    | add b' =>
      show (add_item (run es) b').Pairwise _
      by_cases hmem : b' ∈ run es
      · rw [add_item_of_mem hmem]
        refine ih.imp_of_mem ?_
        intro a b ha hb hab
        obtain ⟨ma, hma⟩ := entryAux_mem_some es a ha
        obtain ⟨mb, hmb⟩ := entryAux_mem_some es b hb
        have ha' : entryAux a (Event.add b' :: es.reverse) = some (ma + 1) :=
          entryAux_cons_shift _ a _ ma hma (fun t ht => by cases ht)
        have hb' : entryAux b (Event.add b' :: es.reverse) = some (mb + 1) :=
          entryAux_cons_shift _ b _ mb hmb (fun t ht => by cases ht)
        intro k1 k2 he1 he2
        rw [ha'] at he1
        rw [hb'] at he2
        cases he1
        cases he2
        exact Nat.succ_lt_succ (hab ma mb hma hmb)
      · rw [add_item, if_neg hmem]
        rw [List.pairwise_append]
        refine ⟨?_, List.pairwise_singleton _ _, ?_⟩
        · refine ih.imp_of_mem ?_
          intro a b ha hb hab
          obtain ⟨ma, hma⟩ := entryAux_mem_some es a ha
          obtain ⟨mb, hmb⟩ := entryAux_mem_some es b hb
          have ha' : entryAux a (Event.add b' :: es.reverse) = some (ma + 1) :=
            entryAux_cons_shift _ a _ ma hma (fun t ht => by cases ht)
          have hb' : entryAux b (Event.add b' :: es.reverse) = some (mb + 1) :=
            entryAux_cons_shift _ b _ mb hmb (fun t ht => by cases ht)
          intro k1 k2 he1 he2
          rw [ha'] at he1
          rw [hb'] at he2
          cases he1
          cases he2
          exact Nat.succ_lt_succ (hab ma mb hma hmb)
        · intro a ha c hc
          rw [List.mem_singleton] at hc
          subst hc
          obtain ⟨ma, hma⟩ := entryAux_mem_some es a ha
          have ha' : entryAux a (Event.add c :: es.reverse) = some (ma + 1) :=
            entryAux_cons_shift _ a _ ma hma (fun t ht => by cases ht)
          have hnone : entryAux c es.reverse = none := by
            have hs : survives c es.reverse = false := by
              rcases hsv : survives c es.reverse with _ | _
              · rfl
              · exact absurd ((mem_run_iff_survives es c).2 hsv) hmem
            have hiss := entryAux_isSome c es.reverse
            rw [hs] at hiss
            cases ho : entryAux c es.reverse with
            | none => rfl
            | some k => rw [ho] at hiss; simp at hiss
          have hc' : entryAux c (Event.add c :: es.reverse) = some 0 :=
            entryAux_cons_add_self c _ hnone
          intro k1 k2 he1 he2
          rw [ha'] at he1
          rw [hc'] at he2
          cases he1
          cases he2
          exact Nat.succ_pos ma
    | remove t =>
      show (remove_item_by_title (run es) t).Pairwise _
      have hsub : (remove_item_by_title (run es) t).Sublist (run es) :=
        List.filter_sublist _
      refine (ih.sublist hsub).imp_of_mem ?_
      intro a b ha hb hab
      have ha2 := mem_remove_item.1 ha
      have hb2 := mem_remove_item.1 hb
      obtain ⟨ma, hma⟩ := entryAux_mem_some es a ha2.1
      obtain ⟨mb, hmb⟩ := entryAux_mem_some es b hb2.1
      have ha' : entryAux a (Event.remove t :: es.reverse) = some (ma + 1) :=
        entryAux_cons_shift _ a _ ma hma
          (fun u hu => by cases hu; exact fun he => ha2.2 he.symm)
      have hb' : entryAux b (Event.remove t :: es.reverse) = some (mb + 1) :=
        entryAux_cons_shift _ b _ mb hmb
          (fun u hu => by cases hu; exact fun he => hb2.2 he.symm)
      intro k1 k2 he1 he2
      rw [ha'] at he1
      rw [hb'] at he2
      cases he1
      cases he2
      exact Nat.succ_lt_succ (hab ma mb hma hmb)

/-- Counterexample to C4: after
`add A; add B; remove "A"; add A` (with `A = ("A","X","2000")`,
`B = ("B","Y","2001")`) the storage is `[B, A]` — the re-added `A` sits at
its re-add position — while the claim's first-add ordering
(`claimedNetList`) demands `[A, B]`. -/
theorem run_not_first_add_order :
    run [Event.add (Book.mk "A" "X" "2000"), Event.add (Book.mk "B" "Y" "2001"),
        Event.remove "A", Event.add (Book.mk "A" "X" "2000")]
        = [Book.mk "B" "Y" "2001", Book.mk "A" "X" "2000"] ∧
      claimedNetList [Event.add (Book.mk "A" "X" "2000"),
          Event.add (Book.mk "B" "Y" "2001"),
          Event.remove "A", Event.add (Book.mk "A" "X" "2000")]
        = [Book.mk "A" "X" "2000", Book.mk "B" "Y" "2001"] ∧
      run [Event.add (Book.mk "A" "X" "2000"), Event.add (Book.mk "B" "Y" "2001"),
          Event.remove "A", Event.add (Book.mk "A" "X" "2000")]
        ≠ claimedNetList [Event.add (Book.mk "A" "X" "2000"),
          Event.add (Book.mk "B" "Y" "2001"),
          Event.remove "A", Event.add (Book.mk "A" "X" "2000")] := by
  refine ⟨by decide, by decide, by decide⟩

/-- C4 amended: after any finite sequence of `add_item` / `remove_item_by_title`
operations from the empty storage, `list_items` returns exactly the records
that were added and not subsequently removed (a record is present iff,
scanning the operations backwards, an add of it precedes every... i.e. an
add of it is more recent than any remove of its title), ordered by the
position at which each surviving record last entered the storage — the
first add after the last remove of its title. This is first-add order
except that a record re-added after a removal appears at its re-add
position. -/
theorem run_net_survivors (es : List Event) :
    (∀ b : Book, list_items (run es) = run es ∧
        (b ∈ run es ↔ survives b es.reverse = true)) ∧
      (run es).Pairwise (fun b1 b2 => ∀ k1 k2,
        entryAux b1 es.reverse = some k1 → entryAux b2 es.reverse = some k2 →
        k2 < k1) :=
  ⟨fun b => ⟨rfl, mem_run_iff_survives es b⟩, run_pairwise_entry es⟩

/-- Witness for `run_net_survivors`: on the scenario
`add A; add B; remove "A"` the surviving record `B` is stored and the
removed `A` is not. -/
theorem run_net_survivors_witness :
    Book.mk "B" "Y" "2001" ∈
        run [Event.add (Book.mk "A" "X" "2000"), Event.add (Book.mk "B" "Y" "2001"),
          Event.remove "A"] ∧
      Book.mk "A" "X" "2000" ∉
        run [Event.add (Book.mk "A" "X" "2000"), Event.add (Book.mk "B" "Y" "2001"),
          Event.remove "A"] :=
  ⟨((run_net_survivors [Event.add (Book.mk "A" "X" "2000"),
        Event.add (Book.mk "B" "Y" "2001"), Event.remove "A"]).1
      (Book.mk "B" "Y" "2001")).2.2 (by decide),
   fun hmem => by
    have := ((run_net_survivors [Event.add (Book.mk "A" "X" "2000"),
        Event.add (Book.mk "B" "Y" "2001"), Event.remove "A"]).1
      (Book.mk "A" "X" "2000")).2.1 hmem
    exact absurd this (by decide)⟩

end Task2
